import Mathlib

/-
Verification of the taskmasterra task-line grammar and record-keeping engine.

The definitions below are a shallow embedding of the Go sources:
  * pkg/task/task.go          — line classifiers, status replacement, ProcessTasks
  * pkg/journal/journal.go    — WriteToJournal / WriteToArchive content merge
  * cmd/taskmasterra/main.go  — the recordKeep loop run by the CLI
  * the priority/effort parser of the task package (ParsePriority / ParseEffort)
  * the final revision of the task package kept in the repository
    (src/unnamed/part_012), where it diverges from pkg/task/task.go

Strings are modelled as lists of characters.  Each Go regular expression used
by the classifiers is an anchored sequence of character classes with star/plus
repetition; `reMatch` is a complete matcher for that fragment (it tries every
split, so it decides exactly "some way to match exists", which is what RE2
MatchString reports for these anchored patterns).
-/

namespace Taskmasterra

/-- One item of an anchored pattern: a single character class, a Kleene-starred
class, or a plus-repeated class. -/
inductive REItem where
  | one  (cls : Char → Bool)
  | star (cls : Char → Bool)
  | plus (cls : Char → Bool)

/-- Repetition of class f, then continue with continuation k: matches
`f* <k>` against the string (structural in the string). -/
def starRun (f : Char → Bool) (k : List Char → Bool) : List Char → Bool
  | [] => k []
  | a :: s => k (a :: s) || (f a && starRun f k s)

/-- Anchored matcher: does some way of consuming the items match an initial
segment of the string?  Mirrors Go MatchString for the `^`-anchored patterns
used by pkg/task (MatchString only asks for existence of a match). -/
def reMatch : List REItem → List Char → Bool
  | [], _ => true
  | .one _ :: _, [] => false
  | .one f :: ps, a :: s => f a && reMatch ps s
  | .star f :: ps, s => starRun f (reMatch ps) s
  | .plus _ :: _, [] => false
  | .plus f :: ps, a :: s => f a && starRun f (reMatch ps) s

/-- Go regexp `\s`: the characters tab, newline, form feed, carriage return, space. -/
def wsGo (c : Char) : Bool :=
  c == ' ' || c == '\t' || c == '\n' || c == '\x0c' || c == '\r'

/-- Go regexp class `[ \t]`. -/
def spaceTab (c : Char) : Bool := c == ' ' || c == '\t'

/-- Go regexp class `[Xx]`. -/
def clsXx (c : Char) : Bool := c == 'X' || c == 'x'

/-- Go regexp class `[BWX]`. -/
def clsBWX (c : Char) : Bool := c == 'B' || c == 'W' || c == 'X'

/-- Pattern of taskRegex = `^- \[`. -/
def taskPat : List REItem :=
  [.one (· == '-'), .one (· == ' '), .one (· == '[')]

/-- Pattern of subTaskRegex = `^[ \t]+- \[`. -/
def subTaskPat : List REItem :=
  [.plus spaceTab, .one (· == '-'), .one (· == ' '), .one (· == '[')]

/-- Pattern of taskDetailRegex = `^[ \t]+- `. -/
def detailPat : List REItem :=
  [.plus spaceTab, .one (· == '-'), .one (· == ' ')]

/-- Pattern of completedTaskRegex = `^\s*- \[[Xx]\]`. -/
def completedPat : List REItem :=
  [.star wsGo, .one (· == '-'), .one (· == ' '), .one (· == '['),
   .one clsXx, .one (· == ']')]

/-- Pattern of activeTaskRegex = `^\s*- \[.\] !! `. -/
def activePat : List REItem :=
  [.star wsGo, .one (· == '-'), .one (· == ' '), .one (· == '['),
   .one (fun _ => true), .one (· == ']'),
   .one (· == ' '), .one (· == '!'), .one (· == '!'), .one (· == ' ')]

/-- First alternative of touchedTaskRegex: `^- \[[BWX]\]`. -/
def touchedPatA : List REItem :=
  [.one (· == '-'), .one (· == ' '), .one (· == '['), .one clsBWX, .one (· == ']')]

/-- Second alternative of touchedTaskRegex: `^\s+- \[[BWX]\]`. -/
def touchedPatB : List REItem :=
  [.plus wsGo, .one (· == '-'), .one (· == ' '), .one (· == '['), .one clsBWX,
   .one (· == ']')]

/-- IsTask from pkg/task/task.go: matches `^- \[`. -/
def isTask (line : List Char) : Bool := reMatch taskPat line

/-- IsSubTask from pkg/task/task.go: matches `^[ \t]+- \[`. -/
def isSubTask (line : List Char) : Bool := reMatch subTaskPat line

/-- IsTaskDetail from pkg/task/task.go: matches `^[ \t]+- `. -/
def isTaskDetail (line : List Char) : Bool := reMatch detailPat line

/-- IsCompleted from pkg/task/task.go: false unless IsTask, then `^\s*- \[[Xx]\]`. -/
def isCompleted (line : List Char) : Bool :=
  isTask line && reMatch completedPat line

/-- IsActive from pkg/task/task.go: false unless IsTask, then `^\s*- \[.\] !! `. -/
def isActive (line : List Char) : Bool :=
  isTask line && reMatch activePat line

/-- IsTouched from pkg/task/task.go: false unless IsTask or IsSubTask, then
`(^- \[[BWX]\]|^\s+- \[[BWX]\])`. -/
def isTouched (line : List Char) : Bool :=
  (isTask line || isSubTask line) &&
    (reMatch touchedPatA line || reMatch touchedPatB line)

/-- The literal five-character text `- [c]` (the pattern built by ReplaceStatus
for marker c, and the replacement text it substitutes). -/
def patc (c : Char) : List Char := ['-', ' ', '[', c, ']']

/-- Does the pattern lead the string (pattern is an initial segment)? -/
def leadsWith : List Char → List Char → Bool
  | [], _ => true
  | _ :: _, [] => false
  | a :: p, b :: s => a == b && leadsWith p s

/-- Does the pattern occur as a contiguous substring?  This is Go
MatchString for a regex that is a literal string. -/
def occursIn (p : List Char) : List Char → Bool
  | [] => p.isEmpty
  | a :: s => leadsWith p (a :: s) || occursIn p s

/-- A marker character that stands only for itself when spliced into regex
text: an ASCII letter or digit.  Outside this set Go's ReplaceStatus
diverges from a literal-pattern reading (a `.` marker matches any status
character, `(` makes MustCompile panic, and `$` is special in the
replacement text), so the embedding below is exact only for these markers —
which include the status letters B/W/X and b/w/x the program uses. -/
def regexPlainMarker (c : Char) : Bool :=
  (decide ('A' ≤ c) && decide (c ≤ 'Z')) ||
  (decide ('a' ≤ c) && decide (c ≤ 'z')) ||
  (decide ('0' ≤ c) && decide (c ≤ '9'))

/-- Go `regexp.ReplaceAllString` of the spliced pattern `- \[o\]` by
`- [n]`, for a regexPlainMarker `o` (where the spliced pattern means the
literal five-character text `- [o]`; for metacharacter markers Go behaves
differently and this definition does not model it): scan left to right; at
a match consume the five matched characters, emit the replacement and
continue after the match (leftmost, non-overlapping); otherwise copy one
character.  A string shorter than five characters cannot contain the
pattern and is returned unchanged. -/
def replaceAllStatus (o n : Char) : List Char → List Char
  | a :: b :: c :: d :: e :: t =>
    if leadsWith (patc o) (a :: b :: c :: d :: e :: t) then
      patc n ++ replaceAllStatus o n t
    else
      a :: replaceAllStatus o n (b :: c :: d :: e :: t)
  | s => s

/-- ReplaceStatus from pkg/task/task.go, for regexPlainMarker markers: if
the pattern `- [old]` matches anywhere, replace all its occurrences by
`- [new]`, else return the line.  (The Go code splices the marker into
regex text, so this embedding is exact only when the marker is a plain
letter or digit — true of every call the program makes; it does not model
the metacharacter-marker behavior of the spliced regex.) -/
def replaceStatus (line : List Char) (oldMarker newMarker : Char) : List Char :=
  if occursIn (patc oldMarker) line then replaceAllStatus oldMarker newMarker line
  else line

/-- ConvertActiveToTouched from pkg/task/task.go: B→b, W→w, X→x in sequence. -/
def convertActiveToTouched (line : List Char) : List Char :=
  replaceStatus (replaceStatus (replaceStatus line 'B' 'b') 'W' 'w') 'X' 'x'

namespace TaskFinal

/-- IsActive from the final revision of the task package kept in the
repository (src/unnamed/part_012): after the prefix test of
`^\s*- \[.\] !! `, take the rest of the line after the match and reject the
line when another `!!` occurs there.  Under the IsTask guard the line starts
with `-`, so the leftmost match of the anchored pattern is exactly the first
nine characters and the rest is `line[9:]`. -/
def isActive (line : List Char) : Bool :=
  isTask line && reMatch activePat line && !(occursIn ['!', '!'] (line.drop 9))

end TaskFinal

/-- The three output batches built by one record-keeping pass:
journal entries, archive entries, and the kept (rewritten) document lines,
each in emission order. -/
structure Batches where
  journal : List (List Char)
  archive : List (List Char)
  updated : List (List Char)
deriving DecidableEq, Repr

/-- ProcessTasks from pkg/task/task.go, pure core: the loop over the split
lines.  `ts` is the formatted timestamp; an entry `timestamp + " " + line`
is `ts ++ ' ' :: line`.  The inner child loop collects the maximal run of
consecutive IsTaskDetail lines after the parent and the outer cursor resumes
after them, which is takeWhile/dropWhile on the remaining lines.  In the
touched/active branch a completed parent is appended to the archive batch
RAW (without the timestamp) — that is what line 98 of pkg/task/task.go does. -/
def processTasks (ts : List Char) : List (List Char) → Batches
  | [] => ⟨[], [], []⟩
  | line :: rest =>
    if isTouched line || isActive line then
      let details := rest.takeWhile isTaskDetail
      let b := processTasks ts (rest.dropWhile isTaskDetail)
      if isCompleted line then
        ⟨(ts ++ ' ' :: line) :: (details ++ b.journal), line :: b.archive, b.updated⟩
      else
        ⟨(ts ++ ' ' :: line) :: (details ++ b.journal), b.archive,
         convertActiveToTouched line :: (details ++ b.updated)⟩
    else if isCompleted line then
      let details := rest.takeWhile isTaskDetail
      let b := processTasks ts (rest.dropWhile isTaskDetail)
      ⟨b.journal, (ts ++ ' ' :: line) :: (details ++ b.archive), b.updated⟩
    else
      let b := processTasks ts rest
      ⟨b.journal, b.archive, line :: b.updated⟩
termination_by lines => lines.length
decreasing_by
  · simp only [List.length_cons]
    exact Nat.lt_succ_of_le (List.dropWhile_sublist isTaskDetail).length_le
  · simp only [List.length_cons]
    exact Nat.lt_succ_of_le (List.dropWhile_sublist isTaskDetail).length_le
  · simp

/-- The recordKeep loop of cmd/taskmasterra/main.go (the pass the CLI
actually runs), pure core.  Identical to `processTasks` except that in the
touched/active branch a completed parent goes to the archive batch WITH the
timestamp. -/
def recordKeepCore (ts : List Char) : List (List Char) → Batches
  | [] => ⟨[], [], []⟩
  | line :: rest =>
    if isTouched line || isActive line then
      let details := rest.takeWhile isTaskDetail
      let b := recordKeepCore ts (rest.dropWhile isTaskDetail)
      if isCompleted line then
        ⟨(ts ++ ' ' :: line) :: (details ++ b.journal),
         (ts ++ ' ' :: line) :: b.archive, b.updated⟩
      else
        ⟨(ts ++ ' ' :: line) :: (details ++ b.journal), b.archive,
         convertActiveToTouched line :: (details ++ b.updated)⟩
    else if isCompleted line then
      let details := rest.takeWhile isTaskDetail
      let b := recordKeepCore ts (rest.dropWhile isTaskDetail)
      ⟨b.journal, (ts ++ ' ' :: line) :: (details ++ b.archive), b.updated⟩
    else
      let b := recordKeepCore ts rest
      ⟨b.journal, b.archive, line :: b.updated⟩
termination_by lines => lines.length
decreasing_by
  · simp only [List.length_cons]
    exact Nat.lt_succ_of_le (List.dropWhile_sublist isTaskDetail).length_le
  · simp only [List.length_cons]
    exact Nat.lt_succ_of_le (List.dropWhile_sublist isTaskDetail).length_le
  · simp

/-- strings.Join(entries, "\n"). -/
def joinNL : List (List Char) → List Char
  | [] => []
  | [e] => e
  | e :: rest => e ++ '\n' :: joinNL rest

/-- WriteToJournal from pkg/journal/journal.go, on file contents: with an
empty batch return immediately (no write, a missing file stays missing);
otherwise read the existing content (empty if the file does not exist) and
write entries joined by newline, then a newline, then the old content. -/
def writeToJournalFile (entries : List (List Char)) (file : Option (List Char)) :
    Option (List Char) :=
  if entries.isEmpty then file
  else some (joinNL entries ++ '\n' :: file.getD [])

/-- WriteToArchive from pkg/journal/journal.go: same logic as WriteToJournal,
duplicated in the source. -/
def writeToArchiveFile (entries : List (List Char)) (file : Option (List Char)) :
    Option (List Char) :=
  if entries.isEmpty then file
  else some (joinNL entries ++ '\n' :: file.getD [])

/-- The three files ProcessTasks touches: the journal, the archive (either
may be absent) and the source document. -/
structure FS where
  journal : Option (List Char)
  archive : Option (List Char)
  doc : List Char
deriving DecidableEq, Repr

/-- The three write stages at the end of ProcessTasks, in program order. -/
inductive Stage where
  | journalW
  | archiveW
  | docW
deriving DecidableEq, Repr

/-- Result of one ProcessTasks run: which write stages were entered (in
order), the resulting files, and the error if one occurred. -/
structure RunOut where
  attempts : List Stage
  fs : FS
  err : Option Stage
deriving DecidableEq, Repr

/-- The effectful tail of ProcessTasks (pkg/task/task.go lines 133-147):
WriteToJournal, then WriteToArchive, then overwrite the source document,
each wrapped in an early error return.  `jFail`/`aFail`/`wFail` inject a
failure of the underlying file write of the corresponding stage (a failed
write leaves the file as it was); WriteToJournal and WriteToArchive cannot
fail on an empty batch, because they return before touching the file. -/
def processTasksRun (ts : List Char) (lines : List (List Char))
    (jFail aFail wFail : Bool) (fs0 : FS) : RunOut :=
  let b := processTasks ts lines
  if !b.journal.isEmpty && jFail then
    ⟨[.journalW], fs0, some .journalW⟩
  else
    let fs1 : FS := { fs0 with journal := writeToJournalFile b.journal fs0.journal }
    if !b.archive.isEmpty && aFail then
      ⟨[.journalW, .archiveW], fs1, some .archiveW⟩
    else
      let fs2 : FS := { fs1 with archive := writeToArchiveFile b.archive fs1.archive }
      if wFail then
        ⟨[.journalW, .archiveW, .docW], fs2, some .docW⟩
      else
        ⟨[.journalW, .archiveW, .docW], { fs2 with doc := joinNL b.updated }, none⟩

/-- Go regexp `\w` (word character, as used by `\b`): `[0-9A-Za-z_]`. -/
def isWordChar (c : Char) : Bool :=
  (decide ('0' ≤ c) && decide (c ≤ '9')) ||
  (decide ('A' ≤ c) && decide (c ≤ 'Z')) ||
  (decide ('a' ≤ c) && decide (c ≤ 'z')) || c == '_'

/-- Go regexp class `[A-Z]`. -/
def isUpperAZ (c : Char) : Bool := decide ('A' ≤ c) && decide (c ≤ 'Z')

/-- Go regexp class `\d`. -/
def isDigit09 (c : Char) : Bool := decide ('0' ≤ c) && decide (c ≤ '9')

/-- Is there a word boundary before the characters that follow the digit run? -/
def boundaryAfter : List Char → Bool
  | [] => true
  | d :: _ => !isWordChar d

/-- Scanner for the leftmost match of `\b([A-Z])(\d+)\b`
(priorityEffortRegex of the task package): at each position, if the
previous character was not a word character, the current character is an
uppercase letter, at least one digit follows and the digit run is followed
by a word boundary, the letter and the digit run form the match; otherwise
move one character right. -/
def findPEAux (prevWord : Bool) : List Char → Option (Char × List Char)
  | [] => none
  | c :: rest =>
    if !prevWord && isUpperAZ c then
      let ds := rest.takeWhile isDigit09
      if !ds.isEmpty && boundaryAfter (rest.drop ds.length) then some (c, ds)
      else findPEAux (isWordChar c) rest
    else findPEAux (isWordChar c) rest

/-- FindStringSubmatch of priorityEffortRegex: at the start of the string
there is no previous character, so the boundary holds. -/
def findPE (line : List Char) : Option (Char × List Char) := findPEAux false line

/-- Priority from the task package: None/Low/Medium/High/Critical. -/
inductive Priority where
  | none
  | low
  | medium
  | high
  | critical
deriving DecidableEq, Repr

/-- strconv.Atoi on the matched digit run. -/
def digitsToNat (ds : List Char) : Nat :=
  ds.foldl (fun n c => 10 * n + (c.toNat - '0'.toNat)) 0

/-- ParsePriority from the task package: first `\b([A-Z])(\d+)\b` match,
letter mapped A→Critical, B→High, C→Medium, D→Low, anything else None. -/
def parsePriority (line : List Char) : Priority :=
  match findPE line with
  | Option.none => .none
  | some (c, _) =>
    if c = 'A' then .critical
    else if c = 'B' then .high
    else if c = 'C' then .medium
    else if c = 'D' then .low
    else .none

/-- ParseEffort from the task package: digit run of the first
`\b([A-Z])(\d+)\b` match as an integer, 0 when there is no match. -/
def parseEffort (line : List Char) : Nat :=
  match findPE line with
  | Option.none => 0
  | some (_, ds) => digitsToNat ds

/-- Modelled from the spec: the "task prefix pattern" of §8 — "optional
leading whitespace, `-`, space, `[`" — used as the hypothesis of the
classifier-totality property.  This is the spec-side pattern, to be compared
with the code-side `taskPat`/`subTaskPat`. -/
def taskLikePat : List REItem :=
  [.star wsGo, .one (· == '-'), .one (· == ' '), .one (· == '[')]

/-- Line 1 of the end-to-end document of §8: a touched, uncompleted task. -/
def c1Line1 : List Char := "- [W] 1 worked".toList

/-- Line 2 of the end-to-end document: an indented detail line. -/
def c1Line2 : List Char := "  - 1 sub detail".toList

/-- Line 3 of the end-to-end document: a completed, untouched task. -/
def c1Line3 : List Char := "- [x] 2 completed".toList

/-- Line 4 of the end-to-end document: an open task. -/
def c1Line4 : List Char := "- [ ] 3 open".toList

/-- Line 1 after ConvertActiveToTouched: the settled lowercase form. -/
def c1Kept1 : List Char := "- [w] 1 worked".toList

/-- A task line that is simultaneously touched and completed. -/
def c2Parent : List Char := "- [X] done".toList

/-- A trailing detail line under the touched-and-completed task. -/
def c2Detail : List Char := "  - some detail".toList

theorem starRun_of_continue (f : Char → Bool) (k : List Char → Bool)
    (s : List Char) (h : k s = true) : starRun f k s = true := by
  cases s with
  | nil => simpa [starRun] using h
  | cons a t => simp [starRun, h]

theorem reMatch_star_of (f : Char → Bool) (ps : List REItem) (s : List Char)
    (h : reMatch ps s = true) : reMatch (.star f :: ps) s = true := by
  simpa [reMatch] using starRun_of_continue f (reMatch ps) s h

theorem starRun_mono (f g : Char → Bool) (k : List Char → Bool)
    (hfg : ∀ c, f c = true → g c = true) (s : List Char)
    (h : starRun f k s = true) : starRun g k s = true := by
  induction s with
  | nil => simpa [starRun] using h
  | cons a t ih =>
    simp only [starRun, Bool.or_eq_true, Bool.and_eq_true] at h ⊢
    rcases h with h | ⟨hfa, hrest⟩
    · exact Or.inl h
    · exact Or.inr ⟨hfg a hfa, ih hrest⟩

theorem reMatch_plus_to_star (f g : Char → Bool) (ps : List REItem) (s : List Char)
    (hfg : ∀ c, f c = true → g c = true)
    (h : reMatch (.plus f :: ps) s = true) : reMatch (.star g :: ps) s = true := by
  cases s with
  | nil => simp [reMatch] at h
  | cons a t =>
    simp only [reMatch, Bool.and_eq_true] at h
    simp only [reMatch, starRun, Bool.or_eq_true, Bool.and_eq_true]
    exact Or.inr ⟨hfg a h.1, starRun_mono f g (reMatch ps) hfg t h.2⟩

theorem spaceTab_le_wsGo : ∀ c, spaceTab c = true → wsGo c = true := by
  intro c hc
  simp only [spaceTab, Bool.or_eq_true, beq_iff_eq] at hc
  rcases hc with h | h <;> simp [wsGo, h]

/-- C7: every string that does not match the task prefix pattern (optional
leading whitespace, `-`, space, `[`) is rejected by all four classifiers:
IsTask, IsCompleted, IsActive and IsTouched all return false on it. -/
theorem c7_nontask_classifiers_false (s : List Char)
    (h : reMatch taskLikePat s = false) :
    isTask s = false ∧ isCompleted s = false ∧ isActive s = false ∧
      isTouched s = false := by
  have hT : isTask s = false := by
    cases ht : isTask s
    · rfl
    · exact absurd (reMatch_star_of wsGo taskPat s ht)
        (by simpa [taskLikePat, taskPat] using h)
  have hS : isSubTask s = false := by
    cases hs : isSubTask s
    · rfl
    · exact absurd (reMatch_plus_to_star spaceTab wsGo taskPat s spaceTab_le_wsGo hs)
        (by simpa [taskLikePat, taskPat] using h)
  refine ⟨hT, ?_, ?_, ?_⟩
  · simp [isCompleted, hT]
  · simp [isActive, hT]
  · simp [isTouched, isTask] at hT ⊢
    simp [hT, isSubTask] at hS ⊢
    simp [hS]

/-- Witness for C7 at the concrete non-task string "hello". -/
theorem c7_nontask_classifiers_false_witness :
    isTask ("hello".toList) = false ∧ isCompleted ("hello".toList) = false ∧
      isActive ("hello".toList) = false ∧ isTouched ("hello".toList) = false :=
  c7_nontask_classifiers_false ("hello".toList) (by decide)

/-- C3 counterexample: the indented line "  - [ ] title" is NOT a task for
IsTask of pkg/task/task.go — its regex `^- \[` admits no leading whitespace
(the repository's own test expects IsTask("  - [W] subtask") = false). -/
theorem c3_counterexample : isTask ("  - [ ] title".toList) = false := by decide

/-- C3 amended: IsTask(line) is true exactly when the line begins with `-`,
space, `[` at the very first character — leading whitespace is not allowed;
indented bracket lines are SubTask/Detail lines instead. -/
theorem c3_isTask_characterization (s : List Char) :
    isTask s = true ↔ ∃ r, s = '-' :: ' ' :: '[' :: r := by
  match s with
  | [] => simp [isTask, taskPat, reMatch]
  | [a] => simp [isTask, taskPat, reMatch]
  | [a, b] => simp [isTask, taskPat, reMatch]
  | a :: b :: c :: r =>
    simp only [isTask, taskPat, reMatch, Bool.and_eq_true, beq_iff_eq]
    constructor
    · rintro ⟨ha, hb, hc, -⟩
      exact ⟨r, by rw [ha, hb, hc]⟩
    · rintro ⟨r', hr⟩
      injection hr with h1 hr
      injection hr with h2 hr
      injection hr with h3 hr
      exact ⟨h1, h2, h3, trivial⟩

/-- Witness for C3's amended characterization at a concrete task line. -/
theorem c3_isTask_characterization_witness : isTask ("- [x] t".toList) = true :=
  (c3_isTask_characterization ("- [x] t".toList)).mpr ⟨" x] t".toList.tail, rfl⟩

/-- C4: on a task line with a second `!!` after the active marker, IsActive
of pkg/task/task.go returns TRUE — it checks only the prefix `- [.] !! ` and
never looks for a later `!!` — while the final revision of the task package
(src/unnamed/part_012, whose documentation says multiple `!!` markers make a
line not active) returns false, as the claim states. -/
theorem c4_isActive_multiple_markers_divergence :
    isActive ("- [ ] !! call !! urgent".toList) = true ∧
      TaskFinal.isActive ("- [ ] !! call !! urgent".toList) = false := by decide

/-- C10: the priority/effort parser reads the first whole-word
letter-plus-digits token: "- [ ] !! A1 Critical task" gives Critical/1,
"- [ ] Regular task" gives None/0, "- [ ] A1 B2 multiple" uses only the
first token A1, and the letters B, C, D map to High, Medium, Low. -/
theorem c10_parse_priority_effort :
    parsePriority ("- [ ] !! A1 Critical task".toList) = Priority.critical ∧
      parseEffort ("- [ ] !! A1 Critical task".toList) = 1 ∧
      parsePriority ("- [ ] Regular task".toList) = Priority.none ∧
      parseEffort ("- [ ] Regular task".toList) = 0 ∧
      parsePriority ("- [ ] A1 B2 multiple".toList) = Priority.critical ∧
      parseEffort ("- [ ] A1 B2 multiple".toList) = 1 ∧
      parsePriority ("- [ ] B2 high".toList) = Priority.high ∧
      parsePriority ("- [ ] C3 medium".toList) = Priority.medium ∧
      parsePriority ("- [ ] D5 low".toList) = Priority.low := by decide

theorem occursIn_cons_of (q : List Char) (a : Char) (s : List Char)
    (h : occursIn q s = true) : occursIn q (a :: s) = true := by
  simp [occursIn, h]

theorem leadsWith_cons (x y : Char) (w s : List Char) :
    leadsWith (x :: w) (y :: s) = ((x == y) && leadsWith w s) := rfl

theorem leads_tail_transfer (U L V : Char) (hV : V ≠ '-') (t : List Char) :
    (leadsWith [' ', '[', V, ']'] (replaceAllStatus U L t) = true →
      leadsWith [' ', '[', V, ']'] t = true) ∧
    (leadsWith ['[', V, ']'] (replaceAllStatus U L t) = true →
      leadsWith ['[', V, ']'] t = true) ∧
    (leadsWith [V, ']'] (replaceAllStatus U L t) = true →
      leadsWith [V, ']'] t = true) ∧
    (leadsWith [']'] (replaceAllStatus U L t) = true →
      leadsWith [']'] t = true) := by
  have hVd : (V == '-') = false := by simpa using hV
  induction t using replaceAllStatus.induct U L with
  | case1 a b c d e t h ih =>
    rw [replaceAllStatus, if_pos h]
    simp [patc, leadsWith, hVd]
  | case2 a b c d e t h ih =>
    rw [replaceAllStatus, if_neg h]
    refine ⟨?_, ?_, ?_, ?_⟩ <;> intro hx <;>
      rw [leadsWith_cons, Bool.and_eq_true] at hx ⊢
    · exact ⟨hx.1, ih.2.1 hx.2⟩
    · exact ⟨hx.1, ih.2.2.1 hx.2⟩
    · exact ⟨hx.1, ih.2.2.2 hx.2⟩
    · exact ⟨hx.1, rfl⟩
  | case3 s h => simp [replaceAllStatus.eq_def]

theorem occursIn_transfer (U L V : Char) (hVL : V ≠ L) (hV : V ≠ '-') (hL : L ≠ '-')
    (s : List Char) :
    occursIn (patc V) (replaceAllStatus U L s) = true →
      V ≠ U ∧ occursIn (patc V) s = true := by
  have hVLd : (V == L) = false := by simpa using hVL
  have hLd : (('-' : Char) == L) = false := by simpa using (Ne.symm hL)
  induction s using replaceAllStatus.induct U L with
  | case1 a b c d e t hm ih =>
    rw [replaceAllStatus, if_pos hm]
    intro h
    have hu : occursIn (patc V) (replaceAllStatus U L t) = true := by
      simpa [patc, occursIn, leadsWith, hVLd, hLd] using h
    have hfit : leadsWith (patc U) (a :: b :: c :: d :: e :: t) = true := hm
    rcases ih hu with ⟨hVU, hocc⟩
    refine ⟨hVU, ?_⟩
    exact occursIn_cons_of _ _ _ (occursIn_cons_of _ _ _ (occursIn_cons_of _ _ _
      (occursIn_cons_of _ _ _ (occursIn_cons_of _ _ _ hocc))))
  | case2 a b c d e t hm ih =>
    rw [replaceAllStatus, if_neg hm]
    intro h
    rw [show occursIn (patc V) (a :: replaceAllStatus U L (b :: c :: d :: e :: t)) =
          (leadsWith (patc V) (a :: replaceAllStatus U L (b :: c :: d :: e :: t)) ||
            occursIn (patc V) (replaceAllStatus U L (b :: c :: d :: e :: t))) from rfl,
        Bool.or_eq_true] at h
    rcases h with h | h
    · rw [show patc V = '-' :: [' ', '[', V, ']'] from rfl, leadsWith_cons,
        Bool.and_eq_true] at h
      have htail : leadsWith [' ', '[', V, ']'] (b :: c :: d :: e :: t) = true :=
        (leads_tail_transfer U L V hV (b :: c :: d :: e :: t)).1 h.2
      have hlead : leadsWith (patc V) (a :: b :: c :: d :: e :: t) = true := by
        rw [show patc V = '-' :: [' ', '[', V, ']'] from rfl, leadsWith_cons,
          Bool.and_eq_true]
        exact ⟨h.1, htail⟩
      refine ⟨?_, by simp [occursIn, hlead]⟩
      intro hVU
      rw [hVU] at hlead
      exact absurd hlead (by simp [hm])
    · rcases ih h with ⟨hVU, hocc⟩
      exact ⟨hVU, occursIn_cons_of _ _ _ hocc⟩
  | case3 s hshape =>
    rcases s with _ | ⟨a, _ | ⟨b, _ | ⟨c, _ | ⟨d, _ | ⟨e, t⟩⟩⟩⟩⟩
    · intro h; simp [replaceAllStatus, occursIn, patc] at h
    · intro h; simp [replaceAllStatus, occursIn, patc, leadsWith] at h
    · intro h; simp [replaceAllStatus, occursIn, patc, leadsWith] at h
    · intro h; simp [replaceAllStatus, occursIn, patc, leadsWith] at h
    · intro h; simp [replaceAllStatus, occursIn, patc, leadsWith] at h
    · exact (hshape a b c d e t rfl).elim

theorem replaceAllStatus_id (o n : Char) (l : List Char) :
    occursIn (patc o) l = false → replaceAllStatus o n l = l := by
  induction l using replaceAllStatus.induct o n with
  | case1 a b c d e t hm ih =>
    intro h
    rw [show occursIn (patc o) (a :: b :: c :: d :: e :: t) =
          (leadsWith (patc o) (a :: b :: c :: d :: e :: t) ||
            occursIn (patc o) (b :: c :: d :: e :: t)) from rfl] at h
    simp [hm] at h
  | case2 a b c d e t hm ih =>
    intro h
    rw [show occursIn (patc o) (a :: b :: c :: d :: e :: t) =
          (leadsWith (patc o) (a :: b :: c :: d :: e :: t) ||
            occursIn (patc o) (b :: c :: d :: e :: t)) from rfl,
        Bool.or_eq_false_iff] at h
    rw [replaceAllStatus, if_neg hm, ih h.2]
  | case3 s hshape =>
    rcases s with _ | ⟨a, _ | ⟨b, _ | ⟨c, _ | ⟨d, _ | ⟨e, t⟩⟩⟩⟩⟩
    · intro h; simp [replaceAllStatus]
    · intro h; simp [replaceAllStatus]
    · intro h; simp [replaceAllStatus]
    · intro h; simp [replaceAllStatus]
    · intro h; simp [replaceAllStatus]
    · exact (hshape a b c d e t rfl).elim

theorem replaceStatus_of_not_occurs (l : List Char) (o n : Char)
    (h : occursIn (patc o) l = false) : replaceStatus l o n = l := by
  rw [replaceStatus, if_neg (by simp [h])]

theorem replaceStatus_no_self (o n : Char) (hON : o ≠ n) (hO : o ≠ '-')
    (hN : n ≠ '-') (l : List Char) :
    occursIn (patc o) (replaceStatus l o n) = false := by
  by_cases hg : occursIn (patc o) l = true
  · rw [replaceStatus, if_pos hg]
    cases hx : occursIn (patc o) (replaceAllStatus o n l) with
    | false => rfl
    | true => exact absurd rfl (occursIn_transfer o n o hON hO hN l hx).1
  · rw [replaceStatus, if_neg hg]
    simpa using hg

theorem replaceStatus_keeps_no (U L V : Char) (hVL : V ≠ L) (hV : V ≠ '-')
    (hL : L ≠ '-') (l : List Char) (h : occursIn (patc V) l = false) :
    occursIn (patc V) (replaceStatus l U L) = false := by
  by_cases hg : occursIn (patc U) l = true
  · rw [replaceStatus, if_pos hg]
    cases hx : occursIn (patc V) (replaceAllStatus U L l) with
    | false => rfl
    | true => exact absurd (occursIn_transfer U L V hVL hV hL l hx).2 (by simp [h])
  · rw [replaceStatus, if_neg hg]
    exact h

/-- C9: ConvertActiveToTouched is idempotent — after one pass no `- [B]`,
`- [W]` or `- [X]` pattern remains (ReplaceStatus removed its own pattern
and the lowercase replacements `- [b]`, `- [w]`, `- [x]` never re-create an
uppercase one), so the second pass leaves the line unchanged. -/
theorem c9_convert_idempotent (l : List Char) :
    convertActiveToTouched (convertActiveToTouched l) = convertActiveToTouched l := by
  have hB1 : occursIn (patc 'B') (replaceStatus l 'B' 'b') = false :=
    replaceStatus_no_self 'B' 'b' (by decide) (by decide) (by decide) l
  have hB2 : occursIn (patc 'B')
      (replaceStatus (replaceStatus l 'B' 'b') 'W' 'w') = false :=
    replaceStatus_keeps_no 'W' 'w' 'B' (by decide) (by decide) (by decide) _ hB1
  have hB3 : occursIn (patc 'B') (convertActiveToTouched l) = false :=
    replaceStatus_keeps_no 'X' 'x' 'B' (by decide) (by decide) (by decide) _ hB2
  have hW2 : occursIn (patc 'W')
      (replaceStatus (replaceStatus l 'B' 'b') 'W' 'w') = false :=
    replaceStatus_no_self 'W' 'w' (by decide) (by decide) (by decide) _
  have hW3 : occursIn (patc 'W') (convertActiveToTouched l) = false :=
    replaceStatus_keeps_no 'X' 'x' 'W' (by decide) (by decide) (by decide) _ hW2
  have hX3 : occursIn (patc 'X') (convertActiveToTouched l) = false :=
    replaceStatus_no_self 'X' 'x' (by decide) (by decide) (by decide) _
  show replaceStatus (replaceStatus (replaceStatus
      (convertActiveToTouched l) 'B' 'b') 'W' 'w') 'X' 'x' = convertActiveToTouched l
  rw [replaceStatus_of_not_occurs _ 'B' 'b' hB3,
      replaceStatus_of_not_occurs _ 'W' 'w' hW3,
      replaceStatus_of_not_occurs _ 'X' 'x' hX3]

/-- C8 counterexample: on a line with two `- [X]` occurrences, ReplaceStatus
rewrites BOTH of them (Go ReplaceAllString replaces every occurrence), so
its result differs from the claimed first-occurrence-only rewrite. -/
theorem c8_counterexample :
    replaceStatus ("- [X] a - [X] b".toList) 'X' 'x' = "- [x] a - [x] b".toList ∧
      "- [x] a - [x] b".toList ≠ "- [x] a - [X] b".toList := by decide

/-- C8 amended: for marker characters that are plain letters or digits
(regex-neutral — every marker the program passes is such a letter),
ReplaceStatus rewrites the status character inside EVERY occurrence of
`- [oldChar]` in the line (not only the first), leaving all other
characters unchanged, and returns the line unchanged when the pattern does
not occur (the match guard before the replacement is redundant).  For
metacharacter markers Go's spliced regex behaves differently and is outside
this statement. -/
theorem c8_replaceStatus_every (l : List Char) (o n : Char)
    (_ho : regexPlainMarker o = true) (_hn : regexPlainMarker n = true) :
    replaceStatus l o n = replaceAllStatus o n l ∧
      (occursIn (patc o) l = false → replaceStatus l o n = l) := by
  refine ⟨?_, replaceStatus_of_not_occurs l o n⟩
  by_cases h : occursIn (patc o) l = true
  · rw [replaceStatus, if_pos h]
  · have hf : occursIn (patc o) l = false := by simpa using h
    rw [replaceStatus_of_not_occurs l o n hf, replaceAllStatus_id o n l hf]

/-- Witness for C8's amended statement at the concrete regex-neutral
markers X and x, exercising both the marker side conditions and the
no-occurrence clause. -/
theorem c8_replaceStatus_every_witness :
    replaceStatus ("- [b] t".toList) 'X' 'x' = "- [b] t".toList :=
  (c8_replaceStatus_every ("- [b] t".toList) 'X' 'x'
    (by decide) (by decide)).2 (by decide)

/-- C1: on the four-line document "- [W] 1 worked" / "  - 1 sub detail" /
"- [x] 2 completed" / "- [ ] 3 open", the record-keeping pass emits the
timestamped parent and the verbatim detail line to the journal batch, the
timestamped completed line to the archive batch, and keeps exactly
"- [w] 1 worked", "  - 1 sub detail", "- [ ] 3 open" in that order. -/
theorem c1_end_to_end (ts : List Char) :
    processTasks ts [c1Line1, c1Line2, c1Line3, c1Line4] =
      ⟨[ts ++ (' ' :: c1Line1), c1Line2], [ts ++ (' ' :: c1Line3)],
        [c1Kept1, c1Line2, c1Line4]⟩ ∧
    joinNL (processTasks ts [c1Line1, c1Line2, c1Line3, c1Line4]).updated =
      "- [w] 1 worked\n  - 1 sub detail\n- [ ] 3 open".toList := by
  have t1 : isTouched c1Line1 = true := by decide
  have c1 : isCompleted c1Line1 = false := by decide
  have d2 : isTaskDetail c1Line2 = true := by decide
  have t3 : isTouched c1Line3 = false := by decide
  have a3 : isActive c1Line3 = false := by decide
  have c3 : isCompleted c1Line3 = true := by decide
  have d3 : isTaskDetail c1Line3 = false := by decide
  have t4 : isTouched c1Line4 = false := by decide
  have a4 : isActive c1Line4 = false := by decide
  have c4 : isCompleted c1Line4 = false := by decide
  have d4 : isTaskDetail c1Line4 = false := by decide
  have cv : convertActiveToTouched c1Line1 = c1Kept1 := by decide
  have hmain : processTasks ts [c1Line1, c1Line2, c1Line3, c1Line4] =
      ⟨[ts ++ (' ' :: c1Line1), c1Line2], [ts ++ (' ' :: c1Line3)],
        [c1Kept1, c1Line2, c1Line4]⟩ := by
    simp [processTasks, List.takeWhile, List.dropWhile,
      t1, c1, d2, t3, a3, c3, d3, t4, a4, c4, d4, cv]
  refine ⟨hmain, ?_⟩
  rw [hmain]
  show joinNL [c1Kept1, c1Line2, c1Line4] =
    "- [w] 1 worked\n  - 1 sub detail\n- [ ] 3 open".toList
  decide

/-- Witness for C1 at the concrete timestamp "[ts]". -/
theorem c1_end_to_end_witness :
    processTasks ("[ts]".toList) [c1Line1, c1Line2, c1Line3, c1Line4] =
      ⟨["[ts]".toList ++ (' ' :: c1Line1), c1Line2],
        ["[ts]".toList ++ (' ' :: c1Line3)], [c1Kept1, c1Line2, c1Line4]⟩ :=
  (c1_end_to_end ("[ts]".toList)).1

/-- C2 evaluation at a touched-and-completed task line with one detail line:
the journal batch gets the timestamped parent and the verbatim detail, the
parent is not kept, the detail goes to the journal only — but ProcessTasks
of pkg/task/task.go puts the RAW parent line (without the timestamp) in the
archive batch, while the CLI recordKeep loop of cmd/taskmasterra/main.go
(and the final task-package revision) puts the TIMESTAMPED parent there, as
the claim states. -/
theorem c2_archive_timestamp_divergence (ts : List Char) :
    processTasks ts [c2Parent, c2Detail] =
      ⟨[ts ++ (' ' :: c2Parent), c2Detail], [c2Parent], []⟩ ∧
    recordKeepCore ts [c2Parent, c2Detail] =
      ⟨[ts ++ (' ' :: c2Parent), c2Detail], [ts ++ (' ' :: c2Parent)], []⟩ ∧
    (ts ++ (' ' :: c2Parent)).length = ts.length + 11 ∧ c2Parent.length = 10 := by
  have tP : isTouched c2Parent = true := by decide
  have cP : isCompleted c2Parent = true := by decide
  have dD : isTaskDetail c2Detail = true := by decide
  refine ⟨?_, ?_, ?_, by decide⟩
  · simp [processTasks, List.takeWhile, List.dropWhile, tP, cP, dD]
  · simp [recordKeepCore, List.takeWhile, List.dropWhile, tP, cP, dD]
  · simp [c2Parent]

/-- C5: in every run, the write stages are entered in the order journal,
archive, document; an error at the journal stage returns that error with
all three files untouched, and an error at the journal or archive stage
leaves the source document unwritten. -/
theorem c5_write_ordering (ts : List Char) (lines : List (List Char))
    (jF aF wF : Bool) (fs0 : FS) :
    ((processTasksRun ts lines jF aF wF fs0).attempts = [Stage.journalW] ∨
      (processTasksRun ts lines jF aF wF fs0).attempts =
        [Stage.journalW, Stage.archiveW] ∨
      (processTasksRun ts lines jF aF wF fs0).attempts =
        [Stage.journalW, Stage.archiveW, Stage.docW]) ∧
    ((processTasksRun ts lines jF aF wF fs0).err = some Stage.journalW →
      processTasksRun ts lines jF aF wF fs0 =
        ⟨[Stage.journalW], fs0, some Stage.journalW⟩) ∧
    ((processTasksRun ts lines jF aF wF fs0).err = some Stage.journalW ∨
        (processTasksRun ts lines jF aF wF fs0).err = some Stage.archiveW →
      (processTasksRun ts lines jF aF wF fs0).fs.doc = fs0.doc) := by
  unfold processTasksRun
  by_cases h1 : (!(processTasks ts lines).journal.isEmpty && jF) = true
  · simp [h1]
  · by_cases h2 : (!(processTasks ts lines).archive.isEmpty && aF) = true
    · simp [h1, h2]
    · by_cases h3 : wF = true
      · simp [h1, h2, h3]
      · simp [h1, h2, h3]

/-- Witness for C5: with an injected journal-write failure on a document
with a nonempty journal batch, the source document is untouched. -/
theorem c5_write_ordering_witness :
    (processTasksRun [] [c2Parent] true false false
        ⟨none, none, c2Parent⟩).fs.doc = c2Parent := by
  have tP : isTouched c2Parent = true := by decide
  have cP : isCompleted c2Parent = true := by decide
  have herr : (processTasksRun [] [c2Parent] true false false
      ⟨none, none, c2Parent⟩).err = some Stage.journalW := by
    simp [processTasksRun, processTasks, tP, cP]
  exact (c5_write_ordering [] [c2Parent] true false false _).2.2 (Or.inl herr)

/-- C6: a nonempty entry batch rewrites the history file to the entries
joined by newline, one newline, then the previous content (prepend); an
empty batch writes nothing, leaving the file — or its absence — as it was;
in particular batch ["NEW"] over existing "OLD\n" gives "NEW\nOLD\n". -/
theorem c6_history_prepend :
    (∀ (es : List (List Char)) (E : List Char), es ≠ [] →
      writeToJournalFile es (some E) = some (joinNL es ++ '\n' :: E) ∧
      writeToArchiveFile es (some E) = some (joinNL es ++ '\n' :: E)) ∧
    (∀ f, writeToJournalFile [] f = f ∧ writeToArchiveFile [] f = f) ∧
    writeToArchiveFile ["NEW".toList] (some ("OLD\n".toList)) =
      some ("NEW\nOLD\n".toList) := by
  refine ⟨?_, ?_, by decide⟩
  · intro es E hne
    have h : es.isEmpty = false := by
      cases es with
      | nil => exact absurd rfl hne
      | cons a t => rfl
    constructor <;> simp [writeToJournalFile, writeToArchiveFile, h]
  · intro f
    constructor <;> simp [writeToJournalFile, writeToArchiveFile]

/-- Witness for C6's nonempty-batch clause at the concrete batch ["NEW"]. -/
theorem c6_history_prepend_witness :
    writeToJournalFile ["NEW".toList] (some ("OLD\n".toList)) =
      some ("NEW\nOLD\n".toList) := by
  have h := (c6_history_prepend.1 ["NEW".toList] ("OLD\n".toList) (by decide)).1
  have hj : joinNL ["NEW".toList] ++ '\n' :: ("OLD\n".toList) =
      "NEW\nOLD\n".toList := by decide
  rw [h, hj]

end Taskmasterra
